import Mathlib

/-!
Shallow embedding of the changelog GitHub Action (`src/main.ts`).

The embedding models the pure data flow of `run`: configuration validation,
release lookup, PR filtering, label grouping, summary generation via an
abstract Gemini endpoint (a function from prompt to outcome), output setting
and artifact construction.  External collaborators (GitHub API, Gemini HTTP
endpoint, artifact store, clock) are parameters of the `Env` structure; the
JavaScript runtime primitives the code relies on (UTF-16 string comparison,
`Date.prototype.toISOString`, `JSON.stringify`, object key enumeration order)
are modelled explicitly below.
-/

/-- Model of JavaScript string order: a JS string is compared by its sequence
of UTF-16 code units, so a character beyond the basic multilingual plane is
expanded into its surrogate pair before comparison. -/
def utf16Units (s : String) : List Nat :=
  (s.data.map (fun c =>
    if c.toNat < 65536 then [c.toNat]
    else [55296 + (c.toNat - 65536) / 1024, 56320 + (c.toNat - 65536) % 1024])).flatten

/-- Lexicographic non-strict order on code-unit sequences. -/
def lexLe : List Nat → List Nat → Bool
  | [], _ => true
  | _ :: _, [] => false
  | a :: as, b :: bs => if a < b then true else if b < a then false else lexLe as bs

/-- Lexicographic strict order on code-unit sequences. -/
def lexLt : List Nat → List Nat → Bool
  | [], [] => false
  | [], _ :: _ => true
  | _ :: _, [] => false
  | a :: as, b :: bs => if a < b then true else if b < a then false else lexLt as bs

/-- Model of the JavaScript comparison `a <= b` on strings. -/
def jsStringLe (a b : String) : Bool := lexLe (utf16Units a) (utf16Units b)

/-- Model of the JavaScript comparison `a < b` on strings. -/
def jsStringLt (a b : String) : Bool := lexLt (utf16Units a) (utf16Units b)

/-- Model of the JavaScript `||` operator specialised to strings: the empty
string is falsy, so it is replaced by the default. -/
def jsOrString (s : Option String) (d : String) : String :=
  match s with
  | some t => if t = "" then d else t
  | none => d

/-- Characters treated as whitespace by JavaScript `String.prototype.trim`. -/
def jsWhitespaceChar (c : Char) : Bool :=
  c = ' ' ∨ c = '\t' ∨ c = '\n' ∨ c = '\r' ∨ c = '\x0b' ∨ c = '\x0c' ∨
  c.toNat = 0xa0 ∨ c.toNat = 0xfeff ∨ c.toNat = 0x1680 ∨
  (0x2000 ≤ c.toNat ∧ c.toNat ≤ 0x200a) ∨
  c.toNat = 0x2028 ∨ c.toNat = 0x2029 ∨ c.toNat = 0x202f ∨
  c.toNat = 0x205f ∨ c.toNat = 0x3000

/-- Model of JavaScript `String.prototype.trim`. -/
def jsTrim (s : String) : String :=
  String.mk (((s.data.dropWhile jsWhitespaceChar).reverse.dropWhile jsWhitespaceChar).reverse)

def hexDigit (n : Nat) : Char :=
  if n < 10 then Char.ofNat ('0'.toNat + n) else Char.ofNat ('a'.toNat + (n - 10))

/-- Structural split of a character list at every occurrence of a separator,
the semantics of JavaScript `String.prototype.split` with a one-character
separator. -/
def splitOnChar (sep : Char) : List Char → List (List Char)
  | [] => [[]]
  | c :: rest =>
    if c = sep then [] :: splitOnChar sep rest
    else
      match splitOnChar sep rest with
      | [] => [[c]]
      | g :: gs => (c :: g) :: gs

/-- Model of JavaScript `s.split(sep)` for a one-character separator. -/
def jsSplit (sep : Char) (s : String) : List String :=
  (splitOnChar sep s.data).map String.mk

/-- Decimal digits of a natural number, driven by a fuel argument so that the
definition is structural. -/
def natToDigitsAux : Nat → Nat → List Char
  | n, 0 => [hexDigit (n % 10)]
  | n, fuel + 1 => if n < 10 then [hexDigit n] else natToDigitsAux (n / 10) fuel ++ [hexDigit (n % 10)]

/-- Decimal rendering of a natural number. -/
def natToString (n : Nat) : String :=
  String.mk (natToDigitsAux n n)

/-- Numeric value of a digit string. -/
def digitsVal (s : String) : Nat :=
  s.data.foldl (fun n c => n * 10 + (c.toNat - '0'.toNat)) 0

/-- Insert a key into a list sorted by ascending numeric value. -/
def insertAsc (x : String) : List String → List String
  | [] => [x]
  | y :: ys => if digitsVal x ≤ digitsVal y then x :: y :: ys else y :: insertAsc x ys

/-- Sort keys by ascending numeric value. -/
def sortAsc : List String → List String
  | [] => []
  | x :: xs => insertAsc x (sortAsc xs)

/-- Left-pad a decimal rendering with zeros. -/
def padZeros (s : String) (len : Nat) : String :=
  if s.length < len then String.mk (List.replicate (len - s.length) '0') ++ s else s

def pad2 (n : Nat) : String := padZeros (natToString n) 2
def pad3 (n : Nat) : String := padZeros (natToString n) 3
def pad4 (n : Nat) : String := padZeros (natToString n) 4
def pad6 (n : Nat) : String := padZeros (natToString n) 6

/-- Proleptic-Gregorian civil date from a count of days since 1970-01-01,
the calendar computation underlying JavaScript `Date`. -/
def civilFromDays (days : Int) : Int × Nat × Nat :=
  let z : Int := days + 719468
  let era : Int := Int.fdiv z 146097
  let doe : Nat := (z - era * 146097).toNat
  let yoe : Nat := (doe - doe / 1460 + doe / 36524 - doe / 146096) / 365
  let y : Int := (yoe : Int) + era * 400
  let doy : Nat := doe - (365 * yoe + yoe / 4 - yoe / 100)
  let mp : Nat := (5 * doy + 2) / 153
  let d : Nat := doy - (153 * mp + 2) / 5 + 1
  let m : Nat := if mp < 10 then mp + 3 else mp - 9
  (if m ≤ 2 then y + 1 else y, m, d)

/-- Model of JavaScript `Date.prototype.toISOString` on a millisecond epoch
timestamp: `YYYY-MM-DDTHH:MM:SS.mmmZ`, with the expanded six-digit signed year
form outside years 0 to 9999. -/
def jsToISOString (ms : Int) : String :=
  let days : Int := Int.fdiv ms 86400000
  let msOfDay : Nat := (ms - days * 86400000).toNat
  let ymd := civilFromDays days
  let y := ymd.1
  let mo := ymd.2.1
  let d := ymd.2.2
  let hh := msOfDay / 3600000
  let mi := msOfDay % 3600000 / 60000
  let ss := msOfDay % 60000 / 1000
  let mss := msOfDay % 1000
  let yearStr :=
    if 0 ≤ y ∧ y ≤ 9999 then pad4 y.toNat
    else if y < 0 then "-" ++ pad6 (-y).toNat
    else "+" ++ pad6 y.toNat
  yearStr ++ "-" ++ pad2 mo ++ "-" ++ pad2 d ++ "T" ++ pad2 hh ++ ":" ++ pad2 mi ++
    ":" ++ pad2 ss ++ "." ++ pad3 mss ++ "Z"

/-- Model of `iso.replace(/[:-]/g, "").replace("T", "-").split(".")[0]`
from the source: the `YYYYMMDD-HHMMSS` release timestamp. -/
def timestampFormat (iso : String) : String :=
  let s1 := String.mk (iso.data.filter (fun c => ¬ (c = ':' ∨ c = '-')))
  let s2 := String.mk (s1.data.map (fun c => if c = 'T' then '-' else c))
  (jsSplit '.' s2).headD s2

/-- Model of `iso.split("T")[0]` from the source: the `YYYY-MM-DD` release
date. -/
def releaseDateFormat (iso : String) : String :=
  (jsSplit 'T' iso).headD iso

/-- Escape one character the way `JSON.stringify` escapes characters inside a
string literal. -/
def jsonEscapeChar (c : Char) : String :=
  if c = '"' then "\\\""
  else if c = '\\' then "\\\\"
  else if c = '\n' then "\\n"
  else if c = '\r' then "\\r"
  else if c = '\t' then "\\t"
  else if c = '\x08' then "\\b"
  else if c = '\x0c' then "\\f"
  else if c.toNat < 32 then "\\u00" ++ String.mk [hexDigit (c.toNat / 16), hexDigit (c.toNat % 16)]
  else String.mk [c]

/-- Model of `JSON.stringify` on a string value. -/
def jsonString (s : String) : String :=
  "\"" ++ String.join (s.data.map jsonEscapeChar) ++ "\""

/-- Whether a string is a canonical array-index property key in JavaScript:
a digit string without leading zeros (other than `"0"` itself) whose value is
below 2^32 - 1.  Such keys are enumerated first, in ascending numeric order,
by JavaScript object property enumeration and hence by `JSON.stringify`. -/
def isArrayIndexString (s : String) : Bool :=
  s ≠ "" ∧ s.data.all (fun c => c.isDigit) ∧
  (s = "0" ∨ s.data.headD '0' ≠ '0') ∧ digitsVal s < 4294967295

/-- Model of JavaScript own-property-key enumeration order for string keys
created in the given insertion order: canonical array-index keys first in
ascending numeric order, then the remaining keys in insertion order. -/
def jsOwnKeys (ks : List String) : List String :=
  sortAsc (ks.filter isArrayIndexString) ++ ks.filter (fun k => ¬ isArrayIndexString k)

/-- Model of a label object returned by the GitHub API; the source reads only
its `name` field. -/
structure RawLabel where
  name : String
deriving DecidableEq

/-- Model of a pull request as returned by `octokit.rest.pulls.list`: the
fields the source reads, with the nullable ones as `Option`. -/
structure RawPR where
  title : String
  body : Option String
  number : Nat
  html_url : String
  user : Option String
  merged_at : Option String
  labels : Option (List RawLabel)
deriving DecidableEq

/-- The `PR` interface of the source. -/
structure PR where
  title : String
  body : String
  number : Nat
  html_url : String
  user : String
  merged_at : String
  labels : List String
deriving DecidableEq

/-- One element of `parts` in the `GeminiResponse` interface. -/
structure GeminiPart where
  text : String
deriving DecidableEq

/-- The `content` field of a Gemini candidate. -/
structure GeminiContent where
  parts : List GeminiPart
deriving DecidableEq

/-- One element of `candidates` in the `GeminiResponse` interface. -/
structure GeminiCandidate where
  content : GeminiContent
deriving DecidableEq

/-- The `GeminiResponse` interface of the source; absent nested structure is
modelled by empty lists. -/
structure GeminiResponse where
  candidates : List GeminiCandidate
deriving DecidableEq

/-- Outcome of one `fetch` to the Gemini endpoint as observed by the source:
a 2xx response carrying a parsed body, a non-2xx response (which the source
turns into a thrown error), or a transport-level rejection. -/
inductive FetchOutcome where
  | ok (resp : GeminiResponse)
  | badStatus
  | transportError
deriving DecidableEq

/-- The `GroupedSummary` interface of the source. -/
structure GroupedSummary where
  markdown : String
  slack : String
deriving DecidableEq

/-- The `LabelGroup` interface of the source. -/
structure LabelGroup where
  name : String
  prs : List PR
  summary : GroupedSummary
deriving DecidableEq

/-- The `metadata` part of the `ArtifactData` interface of the source. -/
structure ArtifactMetadata where
  releaseDate : String
  releaseTimestamp : String
  totalPRs : Nat
  groupingLabels : List String
  generatedAt : String
deriving DecidableEq

/-- The `ArtifactData` interface of the source. -/
structure ArtifactData where
  metadata : ArtifactMetadata
  groups : List LabelGroup
deriving DecidableEq

/-- Model of the release object returned by
`octokit.rest.repos.getLatestRelease`. -/
structure Release where
  id : Nat
  tag_name : String
  created_at : String
deriving DecidableEq

/-- Model of `JSON.stringify` on one `PR` object: fields in declaration
order, as produced by the source's object literals. -/
def jsonPR (pr : PR) : String :=
  "\x7b\"title\":" ++ jsonString pr.title ++
  ",\"body\":" ++ jsonString pr.body ++
  ",\"number\":" ++ natToString pr.number ++
  ",\"html_url\":" ++ jsonString pr.html_url ++
  ",\"user\":" ++ jsonString pr.user ++
  ",\"merged_at\":" ++ jsonString pr.merged_at ++
  ",\"labels\":[" ++ String.intercalate "," (pr.labels.map jsonString) ++ "]\x7d"

/-- Model of `JSON.stringify` on a `PR` array. -/
def jsonPRList (prs : List PR) : String :=
  "[" ++ String.intercalate "," (prs.map jsonPR) ++ "]"

/-- The `groupContext` string of `generateAISummary`. -/
def groupContextOf (groupName : Option String) : String :=
  match groupName with
  | some g => " for " ++ g
  | none => ""

/-- The prompt built by `generateAISummary`. -/
def aiSummaryPrompt (groupContext : String) (prs : List PR) : String :=
  "Create a concise release summary" ++ groupContext ++
  " for the following pull requests. Focus on user-facing improvements and new capabilities. Requirements: Use ### for main headings (minimum h3), #### for subheadings if needed. Keep formatting simple and clean. Preserve Loom video embeddings exactly as they appear in PR descriptions. Return ONLY the summary content - no introductory text, no explanations, just the release notes. Here are the PRs:\n\n" ++
  jsonPRList prs

/-- The prompt built by `convertToSlackFormat`. -/
def slackPrompt (markdownSummary : String) : String :=
  "Reformat the following GitHub release content for Slack using these rules: Use *text* for bold (not **text**), Use _text_ for italic, Use `code` for inline code, Use > for blockquotes, Do NOT use ### headers - just use *Bold Text* for section headers, For Loom videos format as: <video_url|Link Text> (Slack link format), Use emojis sparingly for key points only, Keep line breaks and spacing clean for Slack, Do NOT use markdown image syntax ![](url) - use Slack's link format instead. Make it engaging and easy to read in a Slack channel. Return ONLY the reformatted content - no introductory text, no explanations, just the reformatted release notes. Here is the GitHub release content to reformat:\n\n" ++
  markdownSummary

/-- Extraction `geminiData.candidates?.[0]?.content?.parts?.[0]?.text` from
the parsed response. -/
def extractText (resp : GeminiResponse) : Option String :=
  match resp.candidates with
  | [] => none
  | c :: _ =>
    match c.content.parts with
    | [] => none
    | p :: _ => some p.text

/-- Model of `generateAISummary`: the Gemini endpoint is an abstract function
from the prompt to a fetch outcome.  Returns the produced markdown summary
together with the list of prompts actually sent to the endpoint (empty when
the call is short-circuited).  The thrown-and-caught error paths of the
source (non-2xx status, transport rejection), which also log a warning,
collapse to the fixed failure text. -/
def generateAISummary (gemini : String → FetchOutcome) (prs : List PR)
    (groupName : Option String) : String × List String :=
  if prs.length = 0 then
    ("No new changes were released in this period.", [])
  else
    let prompt := aiSummaryPrompt (groupContextOf groupName) prs
    match gemini prompt with
    | .ok resp => (jsOrString (extractText resp) "Failed to generate summary", [prompt])
    | .badStatus => ("Failed to generate AI summary", [prompt])
    | .transportError => ("Failed to generate AI summary", [prompt])

/-- Model of `convertToSlackFormat`, with the same conventions as
`generateAISummary`. -/
def convertToSlackFormat (gemini : String → FetchOutcome)
    (markdownSummary : String) : String × List String :=
  if markdownSummary = "No new changes were released in this period." ∨
      markdownSummary = "Failed to generate AI summary" then
    (markdownSummary, [])
  else
    let prompt := slackPrompt markdownSummary
    match gemini prompt with
    | .ok resp => (jsOrString (extractText resp) "Failed to generate Slack summary", [prompt])
    | .badStatus => ("Failed to generate Slack summary", [prompt])
    | .transportError => ("Failed to generate Slack summary", [prompt])

/-- The per-group body of the summary loop in `run`: the markdown stage
followed by the Slack stage, with the combined request log. -/
def groupSummaryPair (gemini : String → FetchOutcome) (labelName : String)
    (prs : List PR) : GroupedSummary × List String :=
  let md := generateAISummary gemini prs (some labelName)
  let sl := convertToSlackFormat gemini md.1
  (⟨md.1, sl.1⟩, md.2 ++ sl.2)

/-- A JavaScript `Map<string, PR[]>` as an insertion-ordered association
list.  Keys are unique: `mapSet` overwrites an existing key in place and
otherwise appends. -/
abbrev PRMap : Type := List (String × List PR)

/-- Model of `Map.prototype.set`. -/
def mapSet (m : PRMap) (k : String) (v : List PR) : PRMap :=
  if m.any (fun p => p.1 = k) then
    m.map (fun p => if p.1 = k then (p.1, v) else p)
  else
    m ++ [(k, v)]

/-- Model of `if (groups.has(label)) groups.get(label)!.push(pr)`. -/
def mapPush (m : PRMap) (k : String) (pr : PR) : PRMap :=
  if m.any (fun p => p.1 = k) then
    m.map (fun p => if p.1 = k then (p.1, p.2 ++ [pr]) else p)
  else
    m

/-- The initialisation loop of `groupPRsByLabels`: one empty bucket per
grouping label. -/
def initGroups (groupingLabels : List String) : PRMap :=
  groupingLabels.foldl (fun m label => mapSet m label []) []

/-- The inner loop of `groupPRsByLabels`: push one PR into the bucket of
every label it carries. -/
def pushPR (m : PRMap) (pr : PR) : PRMap :=
  pr.labels.foldl (fun m label => mapPush m label pr) m

/-- Model of `groupPRsByLabels`. -/
def groupPRsByLabels (prs : List PR) (groupingLabels : List String) : PRMap :=
  prs.foldl pushPR (initGroups groupingLabels)

/-- Specification-level description of the bucket of one label: each PR of
the list, repeated once per occurrence of the label in its label list. -/
def bucketSpec (prs : List PR) (label : String) : List PR :=
  (prs.map (fun pr => List.replicate (pr.labels.count label) pr)).flatten

/-- First-occurrence deduplication, the key set of a JavaScript `Map` built
by repeated `set`. -/
def dedupFirst (ls : List String) : List String :=
  ls.foldl (fun acc a => if a ∈ acc then acc else acc ++ [a]) []

/-- The summary loop of `run`: builds the `labelGroups` array and the
`groupedSummaries` object (as an insertion-ordered association list),
skipping empty buckets. -/
def summarizeGroups (gemini : String → FetchOutcome) (groups : PRMap) :
    List LabelGroup × List (String × GroupedSummary) :=
  groups.foldl
    (fun acc g =>
      if g.2.length > 0 then
        let s := (groupSummaryPair gemini g.1 g.2).1
        (acc.1 ++ [⟨g.1, g.2, s⟩], acc.2 ++ [(g.1, s)])
      else acc)
    ([], [])

/-- Model of `JSON.stringify` on one `GroupedSummary` object. -/
def jsonGroupedSummary (s : GroupedSummary) : String :=
  "\x7b\"markdown\":" ++ jsonString s.markdown ++ ",\"slack\":" ++ jsonString s.slack ++ "\x7d"

/-- Model of `JSON.stringify` on the `groupedSummaries` object: properties
are enumerated in JavaScript own-key order (`jsOwnKeys`), not necessarily in
insertion order. -/
def jsonGroupedOutput (gs : List (String × GroupedSummary)) : String :=
  "\x7b" ++
    String.intercalate ","
      ((jsOwnKeys (gs.map Prod.fst)).map (fun k =>
        jsonString k ++ ":" ++
          (match gs.lookup k with
           | some v => jsonGroupedSummary v
           | none => "null"))) ++
  "\x7d"

/-- The label names of a raw PR: `(pr.labels || []).map(label => label.name)`. -/
def labelNamesOf (pr : RawPR) : List String :=
  (pr.labels.getD []).map RawLabel.name

/-- The filter predicate of the `relevantPRs` computation in `run`. -/
def prPasses (sinceDate : String) (groupingLabels : List String)
    (requireFeatureLabel : Bool) (pr : RawPR) : Bool :=
  match pr.merged_at with
  | none => false
  | some m =>
    if jsStringLe m sinceDate then false
    else
      let prLabels := labelNamesOf pr
      let hasGroupingLabel := groupingLabels.any (fun g => prLabels.contains g)
      if requireFeatureLabel then prLabels.contains "feature" && hasGroupingLabel
      else hasGroupingLabel

/-- The projection of the `relevantPRs` computation in `run`. -/
def projectPR (pr : RawPR) : PR :=
  ⟨pr.title, jsOrString pr.body "", pr.number, pr.html_url,
   jsOrString pr.user "", jsOrString pr.merged_at "", labelNamesOf pr⟩

/-- The grouping-labels parse in `run`:
`split(",")`, `trim`, drop blank entries. -/
def parseGroupingLabels (s : String) : List String :=
  ((jsSplit ',' s).map jsTrim).filter (fun l => l.length > 0)

/-- The environment of one `run` invocation: the action inputs, the clock,
and the observable behaviour of the external collaborators.  The Gemini
endpoint is a function from the request prompt to a fetch outcome; GitHub
calls either return data or throw with an error message. -/
structure Env where
  githubToken : String
  geminiApiKey : String
  groupingLabelsInput : String
  requireFeatureLabelInput : String
  nowMillis : Int
  generatedAtMillis : Int
  latestRelease : Except String Release
  pulls : Except String (List RawPR)
  gemini : String → FetchOutcome
  uploadOk : Bool

/-- The observable result of one `run` invocation: the `setOutput` calls in
order, the artifact document written (when the run reaches that step), and
the `setFailed` message (when the run fails). -/
structure RunResult where
  outputs : List (String × String)
  artifactData : Option ArtifactData
  failed : Option String

def missingInputsMessage : String :=
  "Missing required inputs: github-token, gemini-api-key, or grouping-labels"

def groupingLabelsOf (env : Env) : List String :=
  parseGroupingLabels env.groupingLabelsInput

def requireFeatureOf (env : Env) : Bool :=
  env.requireFeatureLabelInput = "true"

/-- Step 2 of `run`: the `(hasPreviousRelease, previousTag,
previousReleaseDate)` triple.  A thrown lookup is caught and leaves the
defaults; a release whose `id` is falsy (zero) also leaves them. -/
def releaseInfoOf (env : Env) : Bool × String × String :=
  match env.latestRelease with
  | .error _ => (false, "", "")
  | .ok rel => if rel.id ≠ 0 then (true, rel.tag_name, rel.created_at) else (false, "", "")

/-- Step 3 of `run`: the fetch cutoff. -/
def sinceDateOf (env : Env) : String :=
  if (releaseInfoOf env).1 then (releaseInfoOf env).2.2
  else jsToISOString (env.nowMillis - 7 * 24 * 60 * 60 * 1000)

/-- The `relevantPRs` list of `run`. -/
def relevantPRsOf (env : Env) : List PR :=
  match env.pulls with
  | .error _ => []
  | .ok allPRs =>
    (allPRs.filter
      (prPasses (sinceDateOf env) (groupingLabelsOf env) (requireFeatureOf env))).map projectPR

/-- The `prGroups` map of `run`. -/
def prGroupsOf (env : Env) : PRMap :=
  groupPRsByLabels (relevantPRsOf env) (groupingLabelsOf env)

/-- The `labelGroups` array of `run`. -/
def labelGroupsOf (env : Env) : List LabelGroup :=
  (summarizeGroups env.gemini (prGroupsOf env)).1

/-- The `groupedSummaries` object of `run`. -/
def groupedSummariesOf (env : Env) : List (String × GroupedSummary) :=
  (summarizeGroups env.gemini (prGroupsOf env)).2

def releaseDateOf (env : Env) : String :=
  releaseDateFormat (jsToISOString env.nowMillis)

def releaseTimestampOf (env : Env) : String :=
  timestampFormat (jsToISOString env.nowMillis)

/-- The outputs set in steps 1 and 2 of `run`, before the PR fetch. -/
def preOutputs (env : Env) : List (String × String) :=
  [("release-date", releaseDateOf env),
   ("release-timestamp", releaseTimestampOf env),
   ("has-previous-release", if (releaseInfoOf env).1 then "true" else "false"),
   ("previous-tag", (releaseInfoOf env).2.1),
   ("previous-release-date", (releaseInfoOf env).2.2)]

/-- The outputs set in step 4 of `run`. -/
def mainOutputs (env : Env) : List (String × String) :=
  [("grouped-summaries", jsonGroupedOutput (groupedSummariesOf env)),
   ("label-groups", String.intercalate "," ((labelGroupsOf env).map LabelGroup.name)),
   ("total-prs", natToString (relevantPRsOf env).length),
   ("has-content", if (labelGroupsOf env).length > 0 then "true" else "false")]

/-- The artifact document written in step 5 of `run`. -/
def artifactDataOf (env : Env) : ArtifactData :=
  ⟨⟨releaseDateOf env, releaseTimestampOf env, (relevantPRsOf env).length,
    groupingLabelsOf env, jsToISOString env.generatedAtMillis⟩,
   labelGroupsOf env⟩

/-- The `artifact-name` output of step 5 of `run`: empty on upload failure. -/
def artifactNameOutput (env : Env) : String × String :=
  ("artifact-name",
   if env.uploadOk then "changelog-" ++ releaseTimestampOf env else "")

/-- Model of `run`.  The early `throw`s for invalid configuration reach the
top-level `catch` and become `setFailed` messages before any output is set;
a thrown PR listing fails the run after the step-1/2 outputs; everything
later is caught at its own boundary, so the run completes. -/
def run (env : Env) : RunResult :=
  if env.githubToken = "" ∨ env.geminiApiKey = "" ∨ env.groupingLabelsInput = "" then
    ⟨[], none, some missingInputsMessage⟩
  else if (groupingLabelsOf env).length = 0 then
    ⟨[], none, some "At least one grouping label must be provided"⟩
  else
    match env.pulls with
    | .error msg => ⟨preOutputs env, none, some msg⟩
    | .ok _ =>
      ⟨preOutputs env ++ mainOutputs env ++ [artifactNameOutput env],
       some (artifactDataOf env), none⟩

/-- A Gemini endpoint that always answers with one fixed reformatted text. -/
def reformatStub : String → FetchOutcome :=
  fun _ => .ok ⟨[⟨⟨[⟨"REFORMATTED"⟩]⟩⟩]⟩

/-- A Gemini endpoint that always answers with one fixed summary text. -/
def summaryStub : String → FetchOutcome :=
  fun _ => .ok ⟨[⟨⟨[⟨"### Test Summary"⟩]⟩⟩]⟩

/-- A concrete healthy environment: valid configuration, a previous release,
three closed PRs of which two pass the filter (the third is merged before the
cutoff), and a Gemini endpoint that always succeeds. -/
def envA : Env :=
  ⟨"test-token", "test-gemini-key", "writer,ui", "false",
   1705406400000, 1705406400000,
   .ok ⟨1, "v1.0.0", "2024-01-01T10:00:00Z"⟩,
   .ok [⟨"Add new writer features", some "Enhanced", 123, "https://example.com/123",
         some "dev1", some "2024-01-15T10:00:00Z", some [⟨"writer"⟩, ⟨"feature"⟩]⟩,
        ⟨"Update UI components", some "New dashboard", 124, "https://example.com/124",
         some "dev2", some "2024-01-16T10:00:00Z", some [⟨"ui"⟩, ⟨"feature"⟩]⟩,
        ⟨"Old feature", some "Old", 100, "https://example.com/100",
         some "dev3", some "2023-01-01T10:00:00Z", some [⟨"writer"⟩]⟩],
   summaryStub, true⟩

/-- The environment `envA` with a failing latest-release lookup. -/
def envB : Env :=
  ⟨"test-token", "test-gemini-key", "writer,ui", "false",
   1705406400000, 1705406400000,
   .error "Not found",
   .ok [⟨"Add new writer features", some "Enhanced", 123, "https://example.com/123",
         some "dev1", some "2024-01-15T10:00:00Z", some [⟨"writer"⟩, ⟨"feature"⟩]⟩],
   summaryStub, true⟩

/-- The environment `envA` with an empty `github-token` input. -/
def envC : Env :=
  ⟨"", "test-gemini-key", "writer,ui", "false",
   1705406400000, 1705406400000,
   .ok ⟨1, "v1.0.0", "2024-01-01T10:00:00Z"⟩,
   .ok [], summaryStub, true⟩

/-- An environment whose grouping labels include the canonical array-index
string `"0"`, with one passing PR per label. -/
def envD : Env :=
  ⟨"test-token", "test-gemini-key", "ui,0", "false",
   1705406400000, 1705406400000,
   .ok ⟨1, "v1.0.0", "2024-01-01T10:00:00Z"⟩,
   .ok [⟨"Add ui", some "b", 1, "https://example.com/1",
         some "dev", some "2024-01-15T10:00:00Z", some [⟨"ui"⟩]⟩,
        ⟨"Add zero", some "b", 2, "https://example.com/2",
         some "dev", some "2024-01-16T10:00:00Z", some [⟨"0"⟩]⟩],
   fun _ => .transportError, true⟩

/-- A PR value used to exercise the grouping function directly. -/
def prW (n : Nat) (ls : List String) : PR :=
  ⟨"t", "b", n, "u", "d", "2024-01-15T10:00:00Z", ls⟩

theorem lexLe_nil_left (bs : List Nat) : lexLe [] bs = true := rfl

theorem lexLt_nil_right (as : List Nat) : lexLt as [] = false := by
  cases as <;> rfl

/-- The orders `lexLe` and `lexLt` are each other's complements with the
arguments swapped, exactly as JavaScript `<=` and `>` on strings. -/
theorem lexLe_eq_false_iff (as : List Nat) :
    ∀ bs, lexLe as bs = false ↔ lexLt bs as = true := by
  induction as with
  | nil => intro bs; cases bs <;> simp [lexLe, lexLt]
  | cons a as ih =>
    intro bs
    cases bs with
    | nil => simp [lexLe, lexLt]
    | cons b bs =>
      simp only [lexLe, lexLt]
      rcases Nat.lt_trichotomy a b with h | h | h
      · simp [h, Nat.lt_asymm h, Nat.ne_of_lt h]
      · subst h
        simp [Nat.lt_irrefl, ih bs]
      · simp [h, Nat.lt_asymm h, Nat.ne_of_lt h]

theorem jsStringLe_eq_false_iff (a b : String) :
    jsStringLe a b = false ↔ jsStringLt b a = true := by
  simpa [jsStringLe, jsStringLt] using lexLe_eq_false_iff (utf16Units a) (utf16Units b)

theorem jsStringLt_empty (a : String) : jsStringLt a "" = false := by
  simpa [jsStringLt, utf16Units] using lexLt_nil_right (utf16Units a)

/-- C1: a closed PR is kept by the filter iff its merge timestamp is present,
non-empty and strictly after the cutoff in JavaScript string order, its label
set meets the configured grouping labels, and, when the require-feature flag
is set, it also carries the literal label "feature"; `run` filters the fetched
list with exactly this predicate. -/
theorem claim_C1 :
    (∀ (sinceDate : String) (gls : List String) (req : Bool) (pr : RawPR),
      prPasses sinceDate gls req pr = true ↔
        ((∃ m, pr.merged_at = some m ∧ m ≠ "" ∧ jsStringLt sinceDate m = true) ∧
         (∃ l ∈ gls, l ∈ labelNamesOf pr) ∧
         (req = true → "feature" ∈ labelNamesOf pr))) ∧
    (∀ (env : Env) (l : List RawPR), env.pulls = Except.ok l →
      relevantPRsOf env =
        (l.filter
          (prPasses (sinceDateOf env) (groupingLabelsOf env) (requireFeatureOf env))).map
          projectPR) := by
  constructor
  · intro sinceDate gls req pr
    rcases hm : pr.merged_at with _ | m
    · simp [prPasses, hm]
    · simp only [prPasses, hm]
      by_cases hle : jsStringLe m sinceDate = true
      · have hlt : jsStringLt sinceDate m = false := by
          rcases Bool.eq_false_or_eq_true (jsStringLt sinceDate m) with h | h
          · rw [(jsStringLe_eq_false_iff m sinceDate).mpr h] at hle
            exact absurd hle (by simp)
          · exact h
        simp [hle, hlt]
      · have hle' : jsStringLe m sinceDate = false := by
          simpa using hle
        have hlt : jsStringLt sinceDate m = true :=
          (jsStringLe_eq_false_iff m sinceDate).mp hle'
        have hne : m ≠ "" := by
          intro h
          rw [h, jsStringLt_empty] at hlt
          exact absurd hlt (by simp)
        cases req with
        | false =>
          simp [hle', hlt, hne, List.any_eq_true, List.elem_iff]
        | true =>
          simp only [hle', if_false, Bool.ite_eq_true_distrib]
          simp [List.any_eq_true, List.elem_iff, hlt, hne]
          tauto
  · intro env l h
    simp [relevantPRsOf, h]

theorem any_key_iff (m : PRMap) (k : String) :
    m.any (fun p => p.1 = k) = true ↔ k ∈ m.map Prod.fst := by
  simp [List.any_eq_true, List.mem_map]

theorem lookup_eq_none_of_not_mem_keys (x : String) :
    ∀ (m : PRMap), x ∉ m.map Prod.fst → List.lookup x m = none := by
  intro m
  induction m with
  | nil => intro _; rfl
  | cons p m ih =>
    intro h
    obtain ⟨pk, pv⟩ := p
    simp only [List.map_cons, List.mem_cons] at h
    push_neg at h
    simp only [List.lookup_cons, beq_false_of_ne h.1]
    exact ih h.2

theorem lookup_isSome_of_mem_keys (x : String) :
    ∀ (m : PRMap), x ∈ m.map Prod.fst → (List.lookup x m).isSome = true := by
  intro m
  induction m with
  | nil => intro h; simp at h
  | cons p m ih =>
    intro h
    obtain ⟨pk, pv⟩ := p
    by_cases hx : x = pk
    · subst hx
      simp [List.lookup_cons]
    · simp only [List.map_cons, List.mem_cons] at h
      rcases h with h | h
      · exact absurd h hx
      · simp only [List.lookup_cons, beq_false_of_ne hx]
        exact ih h

theorem lookup_map_update (k x : String) (f : List PR → List PR) :
    ∀ (m : PRMap),
      List.lookup x (m.map (fun p => if p.1 = k then (p.1, f p.2) else p)) =
        if x = k then (List.lookup x m).map f else List.lookup x m := by
  intro m
  induction m with
  | nil => by_cases h : x = k <;> simp [h]
  | cons p m ih =>
    obtain ⟨pk, pv⟩ := p
    simp only [List.map_cons]
    by_cases hpk : pk = k
    · by_cases hx : x = pk
      · rw [if_pos hpk, hx, hpk]
        simp [List.lookup_cons]
      · have hxk : x ≠ k := fun hc => hx (hc.trans hpk.symm)
        rw [if_pos hpk]
        simp only [List.lookup_cons, beq_false_of_ne hx, beq_false_of_ne hxk, ih, if_neg hxk]
    · by_cases hx : x = pk
      · have hxk : x ≠ k := fun hc => hpk (hx.symm.trans hc)
        rw [if_neg hpk, hx]
        simp [List.lookup_cons, if_neg hpk]
      · rw [if_neg hpk]
        simp only [List.lookup_cons, beq_false_of_ne hx, ih]

theorem lookup_append_singleton (k x : String) (v : List PR) :
    ∀ (m : PRMap),
      List.lookup x (m ++ [(k, v)]) =
        match List.lookup x m with
        | some w => some w
        | none => if x = k then some v else none := by
  intro m
  induction m with
  | nil =>
    by_cases h : x = k
    · rw [h]; simp [List.lookup_cons]
    · simp [List.lookup_cons, beq_false_of_ne h, if_neg h]
  | cons p m ih =>
    obtain ⟨pk, pv⟩ := p
    by_cases hx : x = pk
    · rw [hx]
      simp [List.lookup_cons]
    · simp only [List.cons_append, List.lookup_cons, beq_false_of_ne hx, ih]

theorem lookup_mapSet (m : PRMap) (k x : String) (v : List PR) :
    List.lookup x (mapSet m k v) = if x = k then some v else List.lookup x m := by
  have hupd : List.lookup x (m.map (fun p => if p.1 = k then (p.1, v) else p)) =
      if x = k then (List.lookup x m).map (fun _ => v) else List.lookup x m :=
    lookup_map_update k x (fun _ => v) m
  unfold mapSet
  by_cases hany : m.any (fun p => p.1 = k) = true
  · rw [if_pos hany, hupd]
    by_cases hx : x = k
    · subst hx
      have hs := lookup_isSome_of_mem_keys x m ((any_key_iff m x).mp hany)
      rcases ho : List.lookup x m with _ | w
      · rw [ho] at hs; simp at hs
      · simp [ho]
    · simp [hx]
  · rw [if_neg hany, lookup_append_singleton]
    by_cases hx : x = k
    · subst hx
      rw [lookup_eq_none_of_not_mem_keys x m (fun hm => hany ((any_key_iff m x).mpr hm))]
    · rcases ho : List.lookup x m with _ | w <;> simp [ho, hx]

theorem lookup_mapPush (m : PRMap) (k x : String) (pr : PR) :
    List.lookup x (mapPush m k pr) =
      if x = k then (List.lookup x m).map (fun b => b ++ [pr]) else List.lookup x m := by
  have hupd : List.lookup x (m.map (fun p => if p.1 = k then (p.1, p.2 ++ [pr]) else p)) =
      if x = k then (List.lookup x m).map (fun b => b ++ [pr]) else List.lookup x m :=
    lookup_map_update k x (fun b => b ++ [pr]) m
  unfold mapPush
  by_cases hany : m.any (fun p => p.1 = k) = true
  · rw [if_pos hany, hupd]
  · rw [if_neg hany]
    by_cases hx : x = k
    · subst hx
      rw [lookup_eq_none_of_not_mem_keys x m (fun hm => hany ((any_key_iff m x).mpr hm))]
      simp
    · simp [hx]

theorem keys_map_update (m : PRMap) (k : String) (f : List PR → List PR) :
    (m.map (fun p => if p.1 = k then (p.1, f p.2) else p)).map Prod.fst = m.map Prod.fst := by
  induction m with
  | nil => rfl
  | cons p m ih =>
    obtain ⟨pk, pv⟩ := p
    by_cases hpk : pk = k
    · simp only [List.map_cons, if_pos hpk, ih]
    · simp only [List.map_cons, if_neg hpk, ih]

theorem keys_mapSet (m : PRMap) (k : String) (v : List PR) :
    (mapSet m k v).map Prod.fst =
      if k ∈ m.map Prod.fst then m.map Prod.fst else m.map Prod.fst ++ [k] := by
  have hupd : (m.map (fun p => if p.1 = k then (p.1, v) else p)).map Prod.fst = m.map Prod.fst :=
    keys_map_update m k (fun _ => v)
  unfold mapSet
  by_cases hany : m.any (fun p => p.1 = k) = true
  · rw [if_pos hany, if_pos ((any_key_iff m k).mp hany), hupd]
  · rw [if_neg hany, if_neg (fun hm => hany ((any_key_iff m k).mpr hm))]
    simp

theorem keys_mapPush (m : PRMap) (k : String) (pr : PR) :
    (mapPush m k pr).map Prod.fst = m.map Prod.fst := by
  have hupd : (m.map (fun p => if p.1 = k then (p.1, p.2 ++ [pr]) else p)).map Prod.fst =
      m.map Prod.fst :=
    keys_map_update m k (fun b => b ++ [pr])
  unfold mapPush
  by_cases hany : m.any (fun p => p.1 = k) = true
  · rw [if_pos hany, hupd]
  · rw [if_neg hany]

theorem lookup_foldl_set_nil (x : String) :
    ∀ (gls : List String) (m : PRMap),
      List.lookup x (gls.foldl (fun m label => mapSet m label []) m) =
        if x ∈ gls then some [] else List.lookup x m := by
  intro gls
  induction gls with
  | nil => intro m; simp
  | cons a gls ih =>
    intro m
    rw [List.foldl_cons, ih (mapSet m a []), lookup_mapSet]
    by_cases h1 : x ∈ gls <;> by_cases h2 : x = a <;> simp [h1, h2]

theorem lookup_initGroups (gls : List String) (x : String) :
    List.lookup x (initGroups gls) = if x ∈ gls then some [] else none := by
  unfold initGroups
  rw [lookup_foldl_set_nil]
  rfl

theorem keys_foldl_set_nil :
    ∀ (gls : List String) (m : PRMap),
      (gls.foldl (fun m label => mapSet m label []) m).map Prod.fst =
        gls.foldl (fun acc a => if a ∈ acc then acc else acc ++ [a]) (m.map Prod.fst) := by
  intro gls
  induction gls with
  | nil => intro m; rfl
  | cons a gls ih =>
    intro m
    rw [List.foldl_cons, List.foldl_cons, ih, keys_mapSet]

theorem keys_initGroups (gls : List String) :
    (initGroups gls).map Prod.fst = dedupFirst gls := by
  unfold initGroups dedupFirst
  rw [keys_foldl_set_nil]
  rfl

theorem lookup_foldl_push (x : String) (pr : PR) :
    ∀ (ls : List String) (m : PRMap),
      List.lookup x (ls.foldl (fun m label => mapPush m label pr) m) =
        (List.lookup x m).map (fun b => b ++ List.replicate (ls.count x) pr) := by
  intro ls
  induction ls with
  | nil =>
    intro m
    rcases h : List.lookup x m with _ | b <;> simp [h]
  | cons a ls ih =>
    intro m
    rw [List.foldl_cons, ih (mapPush m a pr), lookup_mapPush]
    by_cases hax : x = a
    · rw [if_pos hax, ← hax, List.count_cons_self]
      rcases h : List.lookup x m with _ | b
      · simp
      · simp [List.replicate_succ, List.append_assoc]
    · rw [if_neg hax, List.count_cons_of_ne hax]

theorem keys_foldl_push (pr : PR) :
    ∀ (ls : List String) (m : PRMap),
      (ls.foldl (fun m label => mapPush m label pr) m).map Prod.fst = m.map Prod.fst := by
  intro ls
  induction ls with
  | nil => intro m; rfl
  | cons a ls ih =>
    intro m
    rw [List.foldl_cons, ih, keys_mapPush]

theorem lookup_foldl_pushPR (x : String) :
    ∀ (prs : List PR) (m : PRMap),
      List.lookup x (prs.foldl pushPR m) =
        (List.lookup x m).map (fun b => b ++ bucketSpec prs x) := by
  intro prs
  induction prs with
  | nil =>
    intro m
    rcases h : List.lookup x m with _ | b <;> simp [h, bucketSpec]
  | cons pr prs ih =>
    intro m
    rw [List.foldl_cons, ih (pushPR m pr)]
    unfold pushPR
    rw [lookup_foldl_push]
    rcases h : List.lookup x m with _ | b
    · simp
    · simp [bucketSpec, List.append_assoc]

theorem keys_groupPRsByLabels (prs : List PR) (gls : List String) :
    (groupPRsByLabels prs gls).map Prod.fst = dedupFirst gls := by
  unfold groupPRsByLabels
  have h : ∀ (ps : List PR) (m : PRMap), (ps.foldl pushPR m).map Prod.fst = m.map Prod.fst := by
    intro ps
    induction ps with
    | nil => intro m; rfl
    | cons pr ps ih =>
      intro m
      rw [List.foldl_cons, ih]
      unfold pushPR
      rw [keys_foldl_push]
  rw [h, keys_initGroups]

theorem lookup_groupPRsByLabels (prs : List PR) (gls : List String) (x : String) :
    List.lookup x (groupPRsByLabels prs gls) =
      if x ∈ gls then some (bucketSpec prs x) else none := by
  unfold groupPRsByLabels
  rw [lookup_foldl_pushPR, lookup_initGroups]
  by_cases h : x ∈ gls <;> simp [h]

theorem mem_foldl_dedup (x : String) :
    ∀ (ls : List String) (acc : List String),
      (x ∈ ls.foldl (fun acc a => if a ∈ acc then acc else acc ++ [a]) acc ↔
        x ∈ acc ∨ x ∈ ls) := by
  intro ls
  induction ls with
  | nil => intro acc; simp
  | cons a ls ih =>
    intro acc
    rw [List.foldl_cons, ih]
    by_cases ha : a ∈ acc
    · rw [if_pos ha]
      constructor
      · rintro (h | h)
        · exact Or.inl h
        · exact Or.inr (List.mem_cons_of_mem a h)
      · rintro (h | h)
        · exact Or.inl h
        · rcases List.mem_cons.mp h with h | h
          · exact Or.inl (h ▸ ha)
          · exact Or.inr h
    · rw [if_neg ha]
      simp [List.mem_append, List.mem_cons]
      tauto

theorem mem_dedupFirst (x : String) (ls : List String) : x ∈ dedupFirst ls ↔ x ∈ ls := by
  unfold dedupFirst
  rw [mem_foldl_dedup]
  simp

theorem nodup_foldl_dedup :
    ∀ (ls : List String) (acc : List String), acc.Nodup →
      (ls.foldl (fun acc a => if a ∈ acc then acc else acc ++ [a]) acc).Nodup := by
  intro ls
  induction ls with
  | nil => intro acc h; exact h
  | cons a ls ih =>
    intro acc h
    rw [List.foldl_cons]
    by_cases ha : a ∈ acc
    · rw [if_pos ha]; exact ih acc h
    · rw [if_neg ha]
      refine ih (acc ++ [a]) ?_
      simp [List.nodup_append, h, ha]

theorem dedupFirst_nodup (ls : List String) : (dedupFirst ls).Nodup :=
  nodup_foldl_dedup ls [] List.nodup_nil

theorem foldl_dedup_of_disjoint :
    ∀ (ls : List String) (acc : List String), ls.Nodup → (∀ x ∈ ls, x ∉ acc) →
      ls.foldl (fun acc a => if a ∈ acc then acc else acc ++ [a]) acc = acc ++ ls := by
  intro ls
  induction ls with
  | nil => intro acc _ _; simp
  | cons a ls ih =>
    intro acc hnd hdisj
    rw [List.foldl_cons, if_neg (hdisj a (List.mem_cons_self a ls))]
    rw [ih (acc ++ [a]) (List.Nodup.of_cons hnd) ?_]
    · simp
    · intro x hx
      simp only [List.mem_append, List.mem_singleton]
      rintro (h | h)
      · exact hdisj x (List.mem_cons_of_mem a hx) h
      · rw [h] at hx
        exact (List.nodup_cons.mp hnd).1 hx

theorem dedupFirst_eq_self (ls : List String) (h : ls.Nodup) : dedupFirst ls = ls := by
  unfold dedupFirst
  rw [foldl_dedup_of_disjoint ls [] h (fun x _ hx => (List.not_mem_nil x) hx)]
  simp

theorem summarizeAux (gemini : String → FetchOutcome) :
    ∀ (gs : PRMap) (acc : List LabelGroup × List (String × GroupedSummary)),
      gs.foldl
        (fun acc g =>
          if g.2.length > 0 then
            (acc.1 ++ [⟨g.1, g.2, (groupSummaryPair gemini g.1 g.2).1⟩],
             acc.2 ++ [(g.1, (groupSummaryPair gemini g.1 g.2).1)])
          else acc) acc =
        (acc.1 ++ (gs.filter (fun g => decide (g.2.length > 0))).map
            (fun g => (⟨g.1, g.2, (groupSummaryPair gemini g.1 g.2).1⟩ : LabelGroup)),
         acc.2 ++ (gs.filter (fun g => decide (g.2.length > 0))).map
            (fun g => (g.1, (groupSummaryPair gemini g.1 g.2).1))) := by
  intro gs
  induction gs with
  | nil => intro acc; simp
  | cons g gs ih =>
    intro acc
    rw [List.foldl_cons]
    by_cases h : g.2.length > 0
    · rw [if_pos h, ih]
      simp [List.filter_cons, h]
    · rw [if_neg h, ih]
      simp [List.filter_cons, h]

theorem summarizeGroups_eq (gemini : String → FetchOutcome) (gs : PRMap) :
    summarizeGroups gemini gs =
      ((gs.filter (fun g => decide (g.2.length > 0))).map
          (fun g => (⟨g.1, g.2, (groupSummaryPair gemini g.1 g.2).1⟩ : LabelGroup)),
       (gs.filter (fun g => decide (g.2.length > 0))).map
          (fun g => (g.1, (groupSummaryPair gemini g.1 g.2).1))) := by
  have h := summarizeAux gemini gs ([], [])
  simp only [List.nil_append] at h
  exact h

theorem labelGroupsOf_eq (env : Env) :
    labelGroupsOf env =
      ((prGroupsOf env).filter (fun g => decide (g.2.length > 0))).map
        (fun g => (⟨g.1, g.2, (groupSummaryPair env.gemini g.1 g.2).1⟩ : LabelGroup)) := by
  unfold labelGroupsOf
  rw [summarizeGroups_eq]

theorem groupedSummariesOf_eq (env : Env) :
    groupedSummariesOf env =
      ((prGroupsOf env).filter (fun g => decide (g.2.length > 0))).map
        (fun g => (g.1, (groupSummaryPair env.gemini g.1 g.2).1)) := by
  unfold groupedSummariesOf
  rw [summarizeGroups_eq]

theorem groupedSummariesOf_eq_map (env : Env) :
    groupedSummariesOf env = (labelGroupsOf env).map (fun lg => (lg.name, lg.summary)) := by
  rw [groupedSummariesOf_eq, labelGroupsOf_eq, List.map_map]
  rfl

theorem labelGroups_names (env : Env) :
    (labelGroupsOf env).map LabelGroup.name =
      ((prGroupsOf env).filter (fun g => decide (g.2.length > 0))).map Prod.fst := by
  rw [labelGroupsOf_eq, List.map_map]
  rfl

theorem prGroups_keys_nodup (env : Env) : ((prGroupsOf env).map Prod.fst).Nodup := by
  unfold prGroupsOf
  rw [keys_groupPRsByLabels]
  exact dedupFirst_nodup _

theorem labelGroups_names_nodup (env : Env) :
    ((labelGroupsOf env).map LabelGroup.name).Nodup := by
  rw [labelGroups_names]
  exact List.Nodup.sublist ((List.filter_sublist _).map Prod.fst) (prGroups_keys_nodup env)

theorem lookup_name_summary :
    ∀ (L : List LabelGroup) (g : LabelGroup), (L.map LabelGroup.name).Nodup → g ∈ L →
      List.lookup g.name (L.map (fun lg => (lg.name, lg.summary))) = some g.summary := by
  intro L
  induction L with
  | nil => intro g _ h; simp at h
  | cons h0 L ih =>
    intro g hnd hg
    simp only [List.map_cons] at hnd ⊢
    rcases List.mem_cons.mp hg with he | ht
    · rw [he]
      simp [List.lookup_cons]
    · have hne : g.name ≠ h0.name := by
        intro hc
        have hmem : g.name ∈ L.map LabelGroup.name := List.mem_map_of_mem _ ht
        rw [hc] at hmem
        exact (List.nodup_cons.mp hnd).1 hmem
      simp only [List.lookup_cons, beq_false_of_ne hne]
      exact ih g (List.nodup_cons.mp hnd).2 ht

theorem run_config_missing (env : Env)
    (h : env.githubToken = "" ∨ env.geminiApiKey = "" ∨ env.groupingLabelsInput = "") :
    run env = ⟨[], none, some missingInputsMessage⟩ := by
  unfold run
  rw [if_pos h]

theorem run_config_empty_labels (env : Env)
    (h1 : ¬(env.githubToken = "" ∨ env.geminiApiKey = "" ∨ env.groupingLabelsInput = ""))
    (h2 : (groupingLabelsOf env).length = 0) :
    run env = ⟨[], none, some "At least one grouping label must be provided"⟩ := by
  unfold run
  rw [if_neg h1, if_pos h2]

theorem run_pulls_error (env : Env) (msg : String)
    (h1 : ¬(env.githubToken = "" ∨ env.geminiApiKey = "" ∨ env.groupingLabelsInput = ""))
    (h2 : ¬(groupingLabelsOf env).length = 0)
    (hp : env.pulls = Except.error msg) :
    run env = ⟨preOutputs env, none, some msg⟩ := by
  unfold run
  rw [if_neg h1, if_neg h2, hp]

theorem run_ok (env : Env) (l : List RawPR)
    (h1 : ¬(env.githubToken = "" ∨ env.geminiApiKey = "" ∨ env.groupingLabelsInput = ""))
    (h2 : ¬(groupingLabelsOf env).length = 0)
    (hp : env.pulls = Except.ok l) :
    run env = ⟨preOutputs env ++ mainOutputs env ++ [artifactNameOutput env],
      some (artifactDataOf env), none⟩ := by
  unfold run
  rw [if_neg h1, if_neg h2, hp]

theorem run_completed (env : Env) (h : (run env).failed = none) :
    run env = ⟨preOutputs env ++ mainOutputs env ++ [artifactNameOutput env],
      some (artifactDataOf env), none⟩ := by
  by_cases h1 : env.githubToken = "" ∨ env.geminiApiKey = "" ∨ env.groupingLabelsInput = ""
  · rw [run_config_missing env h1] at h
    simp at h
  · by_cases h2 : (groupingLabelsOf env).length = 0
    · rw [run_config_empty_labels env h1 h2] at h
      simp at h
    · rcases hp : env.pulls with msg | l
      · rw [run_pulls_error env msg h1 h2 hp] at h
        simp at h
      · exact run_ok env l h1 h2 hp

theorem run_artifact_some (env : Env) (a : ArtifactData)
    (h : (run env).artifactData = some a) :
    a = artifactDataOf env ∧ (run env).failed = none := by
  by_cases h1 : env.githubToken = "" ∨ env.geminiApiKey = "" ∨ env.groupingLabelsInput = ""
  · rw [run_config_missing env h1] at h
    simp at h
  · by_cases h2 : (groupingLabelsOf env).length = 0
    · rw [run_config_empty_labels env h1 h2] at h
      simp at h
    · rcases hp : env.pulls with msg | l
      · rw [run_pulls_error env msg h1 h2 hp] at h
        simp at h
      · rw [run_ok env l h1 h2 hp] at h ⊢
        simp only [Option.some_inj] at h
        exact ⟨h.symm, rfl⟩

theorem lookup_output_total_prs (env : Env) (h : (run env).failed = none) :
    (run env).outputs.lookup "total-prs" = some (natToString (relevantPRsOf env).length) := by
  rw [run_completed env h]
  unfold preOutputs mainOutputs artifactNameOutput
  simp [List.lookup_cons]

theorem lookup_output_has_content (env : Env) (h : (run env).failed = none) :
    (run env).outputs.lookup "has-content" =
      some (if (labelGroupsOf env).length > 0 then "true" else "false") := by
  rw [run_completed env h]
  unfold preOutputs mainOutputs artifactNameOutput
  simp [List.lookup_cons]

theorem lookup_output_label_groups (env : Env) (h : (run env).failed = none) :
    (run env).outputs.lookup "label-groups" =
      some (String.intercalate "," ((labelGroupsOf env).map LabelGroup.name)) := by
  rw [run_completed env h]
  unfold preOutputs mainOutputs artifactNameOutput
  simp [List.lookup_cons]

theorem lookup_output_grouped_summaries (env : Env) (h : (run env).failed = none) :
    (run env).outputs.lookup "grouped-summaries" =
      some (jsonGroupedOutput (groupedSummariesOf env)) := by
  rw [run_completed env h]
  unfold preOutputs mainOutputs artifactNameOutput
  simp [List.lookup_cons]

theorem lookup_output_has_previous (env : Env) (h : (run env).failed = none) :
    (run env).outputs.lookup "has-previous-release" =
      some (if (releaseInfoOf env).1 then "true" else "false") := by
  rw [run_completed env h]
  unfold preOutputs mainOutputs artifactNameOutput
  simp [List.lookup_cons]

theorem lookup_output_previous_tag (env : Env) (h : (run env).failed = none) :
    (run env).outputs.lookup "previous-tag" = some (releaseInfoOf env).2.1 := by
  rw [run_completed env h]
  unfold preOutputs mainOutputs artifactNameOutput
  simp [List.lookup_cons]

theorem lookup_output_previous_date (env : Env) (h : (run env).failed = none) :
    (run env).outputs.lookup "previous-release-date" = some (releaseInfoOf env).2.2 := by
  rw [run_completed env h]
  unfold preOutputs mainOutputs artifactNameOutput
  simp [List.lookup_cons]

theorem lookup_of_mem_nodup :
    ∀ (m : PRMap) (p : String × List PR), (m.map Prod.fst).Nodup → p ∈ m →
      List.lookup p.1 m = some p.2 := by
  intro m
  induction m with
  | nil => intro p _ hp; simp at hp
  | cons q m ih =>
    intro p hnd hp
    rcases List.mem_cons.mp hp with he | ht
    · rw [he]
      obtain ⟨qk, qv⟩ := q
      obtain ⟨pk, pv⟩ := p
      simp only [Prod.mk.injEq] at he
      simp [List.lookup_cons]
    · have hne : p.1 ≠ q.1 := by
        intro hc
        have hmem : p.1 ∈ m.map Prod.fst := List.mem_map_of_mem _ ht
        rw [hc] at hmem
        exact (List.nodup_cons.mp (by simpa using hnd)).1 hmem
      obtain ⟨qk, qv⟩ := q
      simp only [List.lookup_cons, beq_false_of_ne hne]
      exact ih p (List.nodup_cons.mp (by simpa using hnd)).2 ht

/-- C2: grouping creates one bucket per configured label in configuration
order (first occurrence for duplicate labels), every filtered PR is appended
to the bucket of each grouping label it carries, and empty buckets are
excluded both from the summary loop and from the artifact groups. -/
theorem claim_C2 :
    (∀ (prs : List PR) (gls : List String),
      (groupPRsByLabels prs gls).map Prod.fst = dedupFirst gls) ∧
    (∀ (prs : List PR) (gls : List String), gls.Nodup →
      (groupPRsByLabels prs gls).map Prod.fst = gls) ∧
    (∀ (prs : List PR) (gls : List String) (l : String), l ∈ gls →
      List.lookup l (groupPRsByLabels prs gls) = some (bucketSpec prs l)) ∧
    (∀ (prs : List PR) (gls : List String) (pr : PR) (l : String),
      l ∈ gls → pr ∈ prs → l ∈ pr.labels →
      ∃ b, List.lookup l (groupPRsByLabels prs gls) = some b ∧ pr ∈ b) ∧
    (∀ (env : Env) (g : LabelGroup), g ∈ labelGroupsOf env → g.prs ≠ []) ∧
    (∀ (env : Env) (a : ArtifactData), (run env).artifactData = some a →
      a.groups = labelGroupsOf env) := by
  refine ⟨keys_groupPRsByLabels, ?_, ?_, ?_, ?_, ?_⟩
  · intro prs gls h
    rw [keys_groupPRsByLabels, dedupFirst_eq_self gls h]
  · intro prs gls l hl
    rw [lookup_groupPRsByLabels, if_pos hl]
  · intro prs gls pr l hl hpr hlab
    refine ⟨bucketSpec prs l, by rw [lookup_groupPRsByLabels, if_pos hl], ?_⟩
    unfold bucketSpec
    rw [List.mem_flatten]
    refine ⟨List.replicate (pr.labels.count l) pr, List.mem_map_of_mem _ hpr, ?_⟩
    rw [List.mem_replicate]
    have hc : 0 < pr.labels.count l := List.count_pos_iff.mpr hlab
    exact ⟨Nat.ne_of_gt hc, rfl⟩
  · intro env g hg
    rw [labelGroupsOf_eq] at hg
    rcases List.mem_map.mp hg with ⟨g0, hg0, rfl⟩
    have hlen : g0.2.length > 0 := by
      have := List.of_mem_filter hg0
      simpa using this
    intro hnil
    simp only at hnil
    rw [hnil] at hlen
    simp at hlen
  · intro env a ha
    rw [(run_artifact_some env a ha).1]
    rfl

theorem claim_C2_witness :
    List.lookup "ui" (groupPRsByLabels [prW 1 ["writer", "ui"], prW 2 ["ui"]] ["writer", "ui"]) =
      some [prW 1 ["writer", "ui"], prW 2 ["ui"]] := by
  have h := claim_C2.2.2.1 [prW 1 ["writer", "ui"], prW 2 ["ui"]] ["writer", "ui"] "ui"
    (by decide)
  rw [h]
  rfl

theorem sum_single_occurrence (pr : PR) (f : PR → Nat) :
    ∀ (prs : List PR), prs.count pr = 1 →
      (prs.map (fun q => if q = pr then f q else 0)).sum = f pr := by
  intro prs
  induction prs with
  | nil => intro h; simp at h
  | cons q prs ih =>
    intro h
    by_cases hq : q = pr
    · subst hq
      rw [List.count_cons_self] at h
      have h0 : prs.count q = 0 := by omega
      have hnot : q ∉ prs := List.count_eq_zero.mp h0
      have hz : (prs.map (fun q0 => if q0 = q then f q0 else 0)).sum = 0 := by
        rw [List.sum_eq_zero]
        intro x hx
        rcases List.mem_map.mp hx with ⟨q0, hq0, rfl⟩
        rw [if_neg (fun hc => hnot (by rw [← hc]; exact hq0))]
      simp [List.map_cons, List.sum_cons, hz]
    · have hpr : pr ≠ q := Ne.symm hq
      rw [List.count_cons_of_ne hpr] at h
      simp [List.map_cons, List.sum_cons, if_neg hq, ih h]

/-- C9: bucket membership counts label occurrences: a PR occurring once in
the filtered list appears in a label bucket exactly as many times as that
label occurs in its label list, and artifact groups carry those buckets
verbatim. -/
theorem claim_C9 :
    (∀ (prs : List PR) (l : String) (pr : PR),
      (bucketSpec prs l).count pr =
        (prs.map (fun q => if q = pr then q.labels.count l else 0)).sum) ∧
    (∀ (gls : List String) (prs : List PR) (l : String) (pr : PR),
      l ∈ gls → prs.count pr = 1 →
      ∃ b, List.lookup l (groupPRsByLabels prs gls) = some b ∧
        b.count pr = pr.labels.count l) ∧
    (∀ (env : Env) (a : ArtifactData) (g : LabelGroup),
      (run env).artifactData = some a → g ∈ a.groups →
      g.prs = bucketSpec (relevantPRsOf env) g.name) := by
  have hcount : ∀ (prs : List PR) (l : String) (pr : PR),
      (bucketSpec prs l).count pr =
        (prs.map (fun q => if q = pr then q.labels.count l else 0)).sum := by
    intro prs l pr
    induction prs with
    | nil => rfl
    | cons q prs ih =>
      unfold bucketSpec at ih ⊢
      rw [List.map_cons, List.flatten_cons, List.count_append, ih, List.map_cons,
        List.sum_cons, List.count_replicate]
      by_cases hq : q = pr
      · rw [hq, if_pos rfl, if_pos (by simp)]
      · rw [if_neg hq, if_neg (by simp [fun hc => hq (by simpa using hc)])]
  refine ⟨hcount, ?_, ?_⟩
  · intro gls prs l pr hl hone
    refine ⟨bucketSpec prs l, by rw [lookup_groupPRsByLabels, if_pos hl], ?_⟩
    rw [hcount prs l pr, sum_single_occurrence pr (fun q => q.labels.count l) prs hone]
  · intro env a g ha hg
    rw [(run_artifact_some env a ha).1] at hg
    simp only [artifactDataOf] at hg
    rw [labelGroupsOf_eq] at hg
    rcases List.mem_map.mp hg with ⟨g0, hg0, rfl⟩
    have hmem : g0 ∈ prGroupsOf env := List.mem_of_mem_filter hg0
    have hlook := lookup_of_mem_nodup (prGroupsOf env) g0 (prGroups_keys_nodup env) hmem
    unfold prGroupsOf at hlook
    rw [lookup_groupPRsByLabels] at hlook
    by_cases hin : g0.1 ∈ groupingLabelsOf env
    · rw [if_pos hin] at hlook
      simp only [Option.some_inj] at hlook
      simpa using hlook.symm
    · rw [if_neg hin] at hlook
      simp at hlook

theorem claim_C9_witness :
    ∃ b, List.lookup "ui" (groupPRsByLabels [prW 7 ["ui", "ui"]] ["ui"]) = some b ∧
      b.count (prW 7 ["ui", "ui"]) = 2 := by
  rcases claim_C9.2.1 ["ui"] [prW 7 ["ui", "ui"]] "ui" (prW 7 ["ui", "ui"])
      (by decide) (by decide) with ⟨b, hb, hc⟩
  exact ⟨b, hb, by rw [hc]; decide⟩

/-- C3: on an empty PR list the summary generator short-circuits to the fixed
sentinel for the markdown stage, the chat stage passes the sentinel through,
and neither stage issues any request to the generative endpoint. -/
theorem claim_C3 :
    (∀ (gemini : String → FetchOutcome) (gname : Option String),
      generateAISummary gemini [] gname =
        ("No new changes were released in this period.", [])) ∧
    (∀ (gemini : String → FetchOutcome),
      convertToSlackFormat gemini "No new changes were released in this period." =
        ("No new changes were released in this period.", [])) ∧
    (∀ (gemini : String → FetchOutcome) (labelName : String),
      groupSummaryPair gemini labelName [] =
        (⟨"No new changes were released in this period.",
          "No new changes were released in this period."⟩, [])) := by
  refine ⟨fun gemini gname => rfl, fun gemini => ?_, fun gemini labelName => rfl⟩
  unfold convertToSlackFormat
  rw [if_pos (Or.inl rfl)]

/-- C4 counterexample: the structurally-absent placeholder text
"Failed to generate summary" is not in the chat stage's passthrough set, so
the stage sends it to the endpoint and returns the endpoint's reformatted
text rather than its input. -/
theorem claim_C4_counterexample :
    (convertToSlackFormat reformatStub "Failed to generate summary").2 ≠ [] ∧
    (convertToSlackFormat reformatStub "Failed to generate summary").1 = "REFORMATTED" ∧
    (convertToSlackFormat reformatStub "Failed to generate summary").1 ≠
      "Failed to generate summary" := by
  refine ⟨?_, rfl, ?_⟩ <;> decide

/-- C4 amended: the chat stage passes its input through, with no endpoint
call, exactly when the input is the "no changes" sentinel or the literal
"Failed to generate AI summary"; any other input (including the
"Failed to generate summary" placeholder) is sent to the endpoint. -/
theorem claim_C4_amended :
    ∀ (gemini : String → FetchOutcome) (s : String),
      ((s = "No new changes were released in this period." ∨
        s = "Failed to generate AI summary") →
        convertToSlackFormat gemini s = (s, [])) ∧
      (s ≠ "No new changes were released in this period." →
       s ≠ "Failed to generate AI summary" →
        (convertToSlackFormat gemini s).2 = [slackPrompt s]) := by
  intro gemini s
  constructor
  · intro h
    unfold convertToSlackFormat
    rw [if_pos h]
  · intro h1 h2
    simp only [convertToSlackFormat]
    rw [if_neg (fun hc => hc.elim h1 h2)]
    cases hg : gemini (slackPrompt s) <;> simp [hg]

theorem claim_C4_amended_witness :
    convertToSlackFormat reformatStub "Failed to generate AI summary" =
      ("Failed to generate AI summary", []) :=
  (claim_C4_amended reformatStub "Failed to generate AI summary").1 (Or.inr rfl)

/-- C5: an empty token, API key or grouping-labels input fails the run with a
message containing "Missing required inputs" before any output is set, and a
grouping-labels input with zero non-blank entries also fails the run before
any output is set. -/
theorem claim_C5 :
    ∀ (env : Env),
      ((env.githubToken = "" ∨ env.geminiApiKey = "" ∨ env.groupingLabelsInput = "") →
        (run env).outputs = [] ∧ (run env).artifactData = none ∧
        ∃ m, (run env).failed = some m ∧ "Missing required inputs".data <:+: m.data) ∧
      (parseGroupingLabels env.groupingLabelsInput = [] →
        (run env).outputs = [] ∧ (run env).artifactData = none ∧
        ((run env).failed).isSome = true) := by
  intro env
  constructor
  · intro h
    rw [run_config_missing env h]
    refine ⟨rfl, rfl, missingInputsMessage, rfl, ?_⟩
    decide
  · intro h
    by_cases h1 : env.githubToken = "" ∨ env.geminiApiKey = "" ∨ env.groupingLabelsInput = ""
    · rw [run_config_missing env h1]
      exact ⟨rfl, rfl, rfl⟩
    · have h2 : (groupingLabelsOf env).length = 0 := by
        unfold groupingLabelsOf
        rw [h]
        rfl
      rw [run_config_empty_labels env h1 h2]
      exact ⟨rfl, rfl, rfl⟩

theorem claim_C5_witness :
    (run envC).outputs = [] ∧ (run envC).artifactData = none ∧
      ∃ m, (run envC).failed = some m ∧ "Missing required inputs".data <:+: m.data :=
  (claim_C5 envC).1 (Or.inl rfl)

/-- C6: on a completed run, total-prs is the decimal count of filtered PRs,
has-content is "true" exactly when some bucket is non-empty, and label-groups
joins the names of the non-empty buckets in configuration (map) order. -/
theorem claim_C6 :
    ∀ (env : Env), (run env).failed = none →
      (run env).outputs.lookup "total-prs" = some (natToString (relevantPRsOf env).length) ∧
      ((run env).outputs.lookup "has-content" = some "true" ↔
        ∃ g ∈ prGroupsOf env, g.2 ≠ []) ∧
      (run env).outputs.lookup "label-groups" =
        some (String.intercalate ","
          (((prGroupsOf env).filter (fun g => decide (g.2.length > 0))).map Prod.fst)) ∧
      (prGroupsOf env).map Prod.fst = dedupFirst (groupingLabelsOf env) := by
  intro env h
  have hiff : (labelGroupsOf env).length > 0 ↔ ∃ g ∈ prGroupsOf env, g.2 ≠ [] := by
    rw [labelGroupsOf_eq, List.length_map]
    constructor
    · intro hl
      have hne : ((prGroupsOf env).filter fun g => decide (g.2.length > 0)) ≠ [] := by
        intro hnil
        rw [hnil] at hl
        simp at hl
      rcases List.exists_mem_of_ne_nil _ hne with ⟨g, hgmem⟩
      rcases List.mem_filter.mp hgmem with ⟨hgp, hpred⟩
      rw [decide_eq_true_eq] at hpred
      refine ⟨g, hgp, fun hnil => ?_⟩
      rw [hnil] at hpred
      simp at hpred
    · rintro ⟨g, hg, hne⟩
      have hpred : decide (g.2.length > 0) = true := by
        rw [decide_eq_true_eq]
        exact List.length_pos.mpr hne
      have hmem : g ∈ (prGroupsOf env).filter fun g => decide (g.2.length > 0) :=
        List.mem_filter.mpr ⟨hg, hpred⟩
      refine List.length_pos.mpr (fun hnil => ?_)
      rw [hnil] at hmem
      simp at hmem
  refine ⟨lookup_output_total_prs env h, ?_, ?_, ?_⟩
  · rw [lookup_output_has_content env h]
    by_cases hl : (labelGroupsOf env).length > 0
    · rw [if_pos hl]
      simp [hiff.mp hl]
    · rw [if_neg hl]
      constructor
      · intro hc
        simp only [Option.some_inj] at hc
        exact absurd hc (by decide)
      · intro hex
        exact absurd (hiff.mpr hex) hl
  · rw [lookup_output_label_groups env h, labelGroups_names]
  · unfold prGroupsOf
    rw [keys_groupPRsByLabels]

theorem claim_C6_witness :
    (run envA).outputs.lookup "total-prs" = some (natToString (relevantPRsOf envA).length) ∧
    natToString (relevantPRsOf envA).length = "2" ∧
    (run envA).outputs.lookup "label-groups" =
      some (String.intercalate ","
        (((prGroupsOf envA).filter (fun g => decide (g.2.length > 0))).map Prod.fst)) ∧
    String.intercalate ","
      (((prGroupsOf envA).filter (fun g => decide (g.2.length > 0))).map Prod.fst) =
      "writer,ui" := by
  refine ⟨(claim_C6 envA rfl).1, by decide, (claim_C6 envA rfl).2.2.1, by decide⟩

/-- C7: for a non-empty group, a non-2xx status or transport error on the
generative call yields the fixed "Failed to generate AI summary" markdown
(resp. "Failed to generate Slack summary" for the chat stage) instead of a
thrown failure, and no Gemini behaviour can make a validly-configured run
fail. -/
theorem claim_C7 :
    (∀ (gemini : String → FetchOutcome) (prs : List PR) (gname : Option String),
      prs ≠ [] →
      (gemini (aiSummaryPrompt (groupContextOf gname) prs) = FetchOutcome.badStatus ∨
       gemini (aiSummaryPrompt (groupContextOf gname) prs) = FetchOutcome.transportError) →
      generateAISummary gemini prs gname =
        ("Failed to generate AI summary", [aiSummaryPrompt (groupContextOf gname) prs])) ∧
    (∀ (gemini : String → FetchOutcome) (s : String),
      s ≠ "No new changes were released in this period." →
      s ≠ "Failed to generate AI summary" →
      (gemini (slackPrompt s) = FetchOutcome.badStatus ∨
       gemini (slackPrompt s) = FetchOutcome.transportError) →
      convertToSlackFormat gemini s =
        ("Failed to generate Slack summary", [slackPrompt s])) ∧
    (∀ (env : Env) (l : List RawPR),
      env.githubToken ≠ "" → env.geminiApiKey ≠ "" → env.groupingLabelsInput ≠ "" →
      (groupingLabelsOf env).length ≠ 0 → env.pulls = Except.ok l →
      (run env).failed = none) := by
  refine ⟨?_, ?_, ?_⟩
  · intro gemini prs gname hne hbad
    simp only [generateAISummary]
    rw [if_neg (fun hz => hne (List.length_eq_zero.mp hz))]
    rcases hbad with hb | hb <;> rw [hb]
  · intro gemini s h1 h2 hbad
    simp only [convertToSlackFormat]
    rw [if_neg (fun hc => hc.elim h1 h2)]
    rcases hbad with hb | hb <;> rw [hb]
  · intro env l h1 h2 h3 h4 hp
    rw [run_ok env l (fun hc => hc.elim h1 (fun hc2 => hc2.elim h2 h3)) h4 hp]

theorem claim_C7_witness :
    generateAISummary envD.gemini [prW 1 ["ui"]] (some "ui") =
      ("Failed to generate AI summary",
        [aiSummaryPrompt (groupContextOf (some "ui")) [prW 1 ["ui"]]]) ∧
    (run envB).failed = none := by
  constructor
  · exact claim_C7.1 envD.gemini [prW 1 ["ui"]] (some "ui") (by decide) (Or.inr rfl)
  · exact claim_C7.2.2 envB _ (by decide) (by decide) (by decide) (by decide) rfl

/-- C8: a failed latest-release lookup is non-fatal: the run still completes,
has-previous-release is "false", previous-tag and previous-release-date are
empty, and the fetch cutoff becomes the current time minus seven days. -/
theorem claim_C8 :
    ∀ (env : Env) (e : String) (l : List RawPR),
      env.latestRelease = Except.error e →
      env.githubToken ≠ "" → env.geminiApiKey ≠ "" → env.groupingLabelsInput ≠ "" →
      (groupingLabelsOf env).length ≠ 0 → env.pulls = Except.ok l →
      (run env).failed = none ∧
      (run env).outputs.lookup "has-previous-release" = some "false" ∧
      (run env).outputs.lookup "previous-tag" = some "" ∧
      (run env).outputs.lookup "previous-release-date" = some "" ∧
      sinceDateOf env = jsToISOString (env.nowMillis - 7 * 24 * 60 * 60 * 1000) := by
  intro env e l herr h1 h2 h3 h4 hp
  have hnofail : (run env).failed = none := by
    rw [run_ok env l (fun hc => hc.elim h1 (fun hc2 => hc2.elim h2 h3)) h4 hp]
  have hrel : releaseInfoOf env = (false, "", "") := by
    unfold releaseInfoOf
    rw [herr]
  refine ⟨hnofail, ?_, ?_, ?_, ?_⟩
  · rw [lookup_output_has_previous env hnofail, hrel]
    rfl
  · rw [lookup_output_previous_tag env hnofail, hrel]
  · rw [lookup_output_previous_date env hnofail, hrel]
  · unfold sinceDateOf
    rw [hrel]
    rfl

theorem claim_C8_witness :
    (run envB).outputs.lookup "has-previous-release" = some "false" ∧
    sinceDateOf envB = jsToISOString (envB.nowMillis - 7 * 24 * 60 * 60 * 1000) ∧
    jsToISOString (envB.nowMillis - 7 * 24 * 60 * 60 * 1000) =
      "2024-01-09T12:00:00.000Z" := by
  have h := claim_C8 envB "Not found" _ rfl (by decide) (by decide) (by decide) (by decide) rfl
  exact ⟨h.2.1, h.2.2.2.2, by decide⟩

/-- C10 counterexample: with grouping labels `["ui", "0"]` and one passing PR
per label, label-groups and the artifact keep insertion order `ui,0`, but the
serialized grouped-summaries object enumerates the array-index-like key "0"
first, so the three name sequences are not in the same order. -/
theorem claim_C10_counterexample :
    jsOwnKeys ((groupedSummariesOf envD).map Prod.fst) ≠
      (labelGroupsOf envD).map LabelGroup.name ∧
    (run envD).outputs.lookup "label-groups" = some "ui,0" ∧
    jsOwnKeys ((groupedSummariesOf envD).map Prod.fst) = ["0", "ui"] ∧
    (labelGroupsOf envD).map LabelGroup.name = ["ui", "0"] := by
  refine ⟨?_, ?_, ?_, ?_⟩ <;> decide

/-- C10 amended: on every completed run the artifact groups are exactly the
label groups, the grouped-summaries insertion keys are the label-group names
in the same order with identical summary pairs, and when no group name is a
canonical array-index string the serialized grouped-summaries key order also
coincides with the label-groups output order. -/
theorem claim_C10_amended :
    ∀ (env : Env) (a : ArtifactData), (run env).artifactData = some a →
      a.groups = labelGroupsOf env ∧
      (groupedSummariesOf env).map Prod.fst = (labelGroupsOf env).map LabelGroup.name ∧
      (∀ g ∈ a.groups, (groupedSummariesOf env).lookup g.name = some g.summary) ∧
      ((∀ k ∈ (groupedSummariesOf env).map Prod.fst, isArrayIndexString k = false) →
        jsOwnKeys ((groupedSummariesOf env).map Prod.fst) =
          (labelGroupsOf env).map LabelGroup.name ∧
        (run env).outputs.lookup "label-groups" =
          some (String.intercalate "," ((labelGroupsOf env).map LabelGroup.name))) := by
  intro env a ha
  have hgroups : a.groups = labelGroupsOf env := by
    rw [(run_artifact_some env a ha).1]
    rfl
  have hkeys : (groupedSummariesOf env).map Prod.fst =
      (labelGroupsOf env).map LabelGroup.name := by
    rw [groupedSummariesOf_eq_map, List.map_map]
    rfl
  refine ⟨hgroups, hkeys, ?_, ?_⟩
  · intro g hg
    rw [hgroups] at hg
    rw [groupedSummariesOf_eq_map]
    exact lookup_name_summary (labelGroupsOf env) g (labelGroups_names_nodup env) hg
  · intro hnone
    have hjs : jsOwnKeys ((groupedSummariesOf env).map Prod.fst) =
        (groupedSummariesOf env).map Prod.fst := by
      unfold jsOwnKeys
      have hfil : ((groupedSummariesOf env).map Prod.fst).filter isArrayIndexString = [] := by
        rw [List.filter_eq_nil_iff]
        intro k hk
        simp [hnone k hk]
      have hfil2 : ((groupedSummariesOf env).map Prod.fst).filter
          (fun k => ¬ isArrayIndexString k) = (groupedSummariesOf env).map Prod.fst := by
        rw [List.filter_eq_self]
        intro k hk
        simp [hnone k hk]
      rw [hfil, hfil2]
      rfl
    exact ⟨by rw [hjs, hkeys],
      lookup_output_label_groups env (run_artifact_some env a ha).2⟩

theorem claim_C10_amended_witness :
    (artifactDataOf envA).groups = labelGroupsOf envA ∧
    jsOwnKeys ((groupedSummariesOf envA).map Prod.fst) =
      (labelGroupsOf envA).map LabelGroup.name := by
  have h := claim_C10_amended envA (artifactDataOf envA) (by rw [run_ok envA _ (by decide) (by decide) rfl])
  exact ⟨h.1, (h.2.2.2 (by decide)).1⟩

theorem claim_C1_witness :
    prPasses "2024-01-01T10:00:00Z" ["writer", "ui"] true
      ⟨"t", some "b", 1, "u", some "d", some "2024-01-15T10:00:00Z",
        some [⟨"writer"⟩, ⟨"feature"⟩]⟩ = true ∧
    relevantPRsOf envA =
      ((envA.pulls.toOption.getD []).filter
        (prPasses (sinceDateOf envA) (groupingLabelsOf envA) (requireFeatureOf envA))).map
        projectPR := by
  constructor
  · exact (claim_C1.1 "2024-01-01T10:00:00Z" ["writer", "ui"] true _).mpr
      ⟨⟨"2024-01-15T10:00:00Z", rfl, by decide, by decide⟩,
       ⟨"writer", by decide, by decide⟩, fun _ => by decide⟩
  · exact claim_C1.2 envA _ rfl
